import Mathlib

/-!
Verification development for the StimaSense repository: a shallow embedding of
the KPLC planned-outage scraper (`services/kplc/scraper/fetch_kplc_planned_outages.py`,
with an older variant under `src/services/...`) and of the model trainer's
control flow (`services/prediction/train_from_parquet.py` and
`src/services/prediction/train_from_parquet.py`), together with theorems
settling the frozen claims about the record extractor, the deduplicator/sorter,
the fetch orchestrator and the trainer CLI/exit behaviour.

Machine text is modelled as Lean `String`/`List Char`; the Python regular
expressions used by the scraper are embedded as explicit matchers with
leftmost-search and greedy/backtracking behaviour spelled out per pattern.
External collaborators (HTTP, BeautifulSoup, pdf text extraction, sha1) are
parameters of the embedding; everything the repository itself computes is
translated concretely.
-/

/-- ASCII whitespace recognised by Python's `\s` on the inputs in scope
(space, tab, newline, carriage return, vertical tab, form feed). -/
def isPySpace (c : Char) : Bool :=
  c == ' ' || c == '\t' || c == '\n' || c == '\r' || c == '\x0b' || c == '\x0c'

/-- ASCII letter. -/
def isAsciiAlpha (c : Char) : Bool :=
  ('A' ≤ c && c ≤ 'Z') || ('a' ≤ c && c ≤ 'z')

/-- ASCII digit. -/
def isDigitCh (c : Char) : Bool :=
  '0' ≤ c && c ≤ '9'

/-- ASCII lower-casing, as used by the case-insensitive `(?i)` regex flag and
`str.lower()` on the ASCII keywords involved. -/
def asciiLower (c : Char) : Char :=
  if 'A' ≤ c && c ≤ 'Z' then Char.ofNat (c.toNat + 32) else c

/-- Replace every whitespace character by a single space (first half of
`re.sub(r"\s+", " ", s)`). -/
def mapWs (l : List Char) : List Char :=
  l.map (fun c => if isPySpace c then ' ' else c)

/-- Collapse runs of spaces to one space (second half of `re.sub(r"\s+", " ", s)`
after `mapWs`). -/
def squeezeSpaces : List Char → List Char
  | [] => []
  | [c] => [c]
  | a :: b :: rest =>
    if a == ' ' && b == ' ' then squeezeSpaces (b :: rest)
    else a :: squeezeSpaces (b :: rest)

/-- Python `str.strip()` on a character list. -/
def pyStripChars (l : List Char) : List Char :=
  ((l.dropWhile isPySpace).reverse.dropWhile isPySpace).reverse

/-- `normalize_space`: `re.sub(r"\s+", " ", s or "").strip()`. -/
def normalize_space (s : String) : String :=
  String.mk (pyStripChars (squeezeSpaces (mapWs s.toList)))

/-- Python `str.strip()` producing a `String`. -/
def pyStrip (l : List Char) : String :=
  String.mk (pyStripChars l)

/-- Line-break characters recognised by Python `str.splitlines()`. -/
def isLineBreak (c : Char) : Bool :=
  c == '\n' || c == '\r' || c == '\x0b' || c == '\x0c' ||
  c == '\x1c' || c == '\x1d' || c == '\x1e' || c == '\x85' ||
  c.toNat == 0x2028 || c.toNat == 0x2029

/-- Worker for `pySplitlines`; `acc` holds the current line reversed. -/
def splitlinesAux : List Char → List Char → List (List Char)
  | [], acc => if acc.isEmpty then [] else [acc.reverse]
  | '\r' :: '\n' :: rest, acc => acc.reverse :: splitlinesAux rest []
  | c :: rest, acc =>
    if isLineBreak c then acc.reverse :: splitlinesAux rest []
    else splitlinesAux rest (c :: acc)

/-- Python `str.splitlines()` (no trailing empty line for a terminal break). -/
def pySplitlines (s : String) : List String :=
  (splitlinesAux s.toList []).map String.mk

/-- `hash_id`: sha1-hex of the text truncated to 16 characters; the sha1
library call is a parameter `sha1hex`. -/
def hash_id (sha1hex : String → String) (text : String) : String :=
  (sha1hex text).take 16

/-- An `OutageNotice` record as built by the scraper. -/
structure Outage where
  id : String
  region : String
  area : String
  startTime : String
  endTime : String
  sourceUrl : String
  createdAt : String
deriving Repr, DecidableEq

/-! ### Embedded regular-expression matchers

The four patterns of `parse_pdf_for_outages` and the pattern of
`parse_with_regex` are embedded as explicit matchers.  Each matcher documents
the Python pattern it translates; `search` semantics (leftmost match) are
realised by trying every suffix in order. -/

/-- Case-insensitive literal match of `pat` as a prefix of `s`; returns the
remainder on success. -/
def ciPrefix : List Char → List Char → Option (List Char)
  | [], s => some s
  | _ :: _, [] => none
  | p :: ps, c :: cs => if asciiLower c == asciiLower p then ciPrefix ps cs else none

/-- `re.search` driver: try the matcher at position 0, 1, 2, ... and return the
first success (leftmost match). -/
def searchAux (f : List Char → Option (List Char)) : List Char → Option (List Char)
  | [] => none
  | c :: rest =>
    match f (c :: rest) with
    | some g => some g
    | none => searchAux f rest

/-- Matcher for `(?i)^area\s*:\s*(.+)` at position 0, returning group 1.
`\s*` is greedy; when everything after the colon is whitespace the engine
backtracks and `(.+)` captures a single whitespace character (any character but
a newline). -/
def areaGroupAt (s : List Char) : Option (List Char) :=
  match ciPrefix "area".toList s with
  | none => none
  | some r1 =>
    match r1.dropWhile isPySpace with
    | ':' :: r3 =>
      let ws := r3.takeWhile isPySpace
      let r4 := r3.dropWhile isPySpace
      if r4.isEmpty then
        if ws.any (fun c => c != '\n') then some [' '] else none
      else
        some (r4.takeWhile (fun c => c != '\n'))
    | _ => none

/-- `area_re` applied by `re.search`: anchored by `^`, so only position 0 is
tried; the captured group is `.strip()`ed by the caller. -/
def areaCapture (ln : String) : Option String :=
  (areaGroupAt ln.toList).map pyStrip

/-- `\d{1,2}` immediately followed by a `[. slash -]` separator, greedy with
backtracking; returns the consumed characters (digits and separator) and the
rest. -/
def digits12Sep : List Char → Option (List Char × List Char)
  | a :: rest =>
    if isDigitCh a then
      match rest with
      | b :: rest2 =>
        if isDigitCh b then
          match rest2 with
          | c :: rest3 => if c == '.' || c == '/' || c == '-' then some ([a, b, c], rest3) else none
          | [] => none
        else if b == '.' || b == '/' || b == '-' then some ([a, b], rest2) else none
      | [] => none
    else none
  | [] => none

/-- Exactly four digits. -/
def digits4 : List Char → Option (List Char × List Char)
  | a :: b :: c :: d :: rest =>
    if isDigitCh a && isDigitCh b && isDigitCh c && isDigitCh d then
      some ([a, b, c, d], rest)
    else none
  | _ => none

/-- Matcher for `(?i)date\s*:\s*([A-Za-z]+\s*\d{1,2}[. slash -]\d{1,2}[. slash -]\d{4})`
at one position, returning group 1.  The character classes are pairwise
disjoint, so greediness is deterministic except in `\d{1,2}[. slash -]`. -/
def dateGroupAt (s : List Char) : Option (List Char) :=
  match ciPrefix "date".toList s with
  | none => none
  | some r1 =>
    match r1.dropWhile isPySpace with
    | ':' :: r3 =>
      let r4 := r3.dropWhile isPySpace
      let letters := r4.takeWhile isAsciiAlpha
      if letters.isEmpty then none
      else
        let r5 := r4.drop letters.length
        let sp := r5.takeWhile isPySpace
        let r6 := r5.drop sp.length
        match digits12Sep r6 with
        | none => none
        | some (p1, r7) =>
          match digits12Sep r7 with
          | none => none
          | some (p2, r8) =>
            match digits4 r8 with
            | none => none
            | some (y, _) => some (letters ++ sp ++ p1 ++ p2 ++ y)
    | _ => none

/-- `date_re` applied by `re.search`, group 1 `.strip()`ed by the caller. -/
def dateCapture (ln : String) : Option String :=
  (searchAux dateGroupAt ln.toList).map pyStrip

/-- Membership in the class `[0-9.:\sAPMapm–\-]` of `time_re`. -/
def inTimeClass (c : Char) : Bool :=
  isDigitCh c || c == '.' || c == ':' || isPySpace c ||
  c == 'A' || c == 'P' || c == 'M' || c == 'a' || c == 'p' || c == 'm' ||
  c == '–' || c == '-'

/-- Matcher for `(?i)time\s*:\s*([0-9.:\sAPMapm–\-]+)` at one position,
returning group 1.  `\s*` is greedy; when the character after the whitespace is
outside the class the engine backtracks and the group captures a single
whitespace character. -/
def timeGroupAt (s : List Char) : Option (List Char) :=
  match ciPrefix "time".toList s with
  | none => none
  | some r1 =>
    match r1.dropWhile isPySpace with
    | ':' :: r3 =>
      let ws := r3.takeWhile isPySpace
      let r4 := r3.dropWhile isPySpace
      let run := r4.takeWhile inTimeClass
      if run.isEmpty then
        if ws.isEmpty then none else some [' ']
      else some run
    | _ => none

/-- `time_re` applied by `re.search`, group 1 `.strip()`ed by the caller. -/
def timeCapture (ln : String) : Option String :=
  (searchAux timeGroupAt ln.toList).map pyStrip

/-- Membership in the class `[A-Z\s]` under the `(?i)` flag. -/
def inRegionClass (c : Char) : Bool :=
  isAsciiAlpha c || isPySpace c

/-- Case-insensitive list equality. -/
def ciEq (a b : List Char) : Bool :=
  a.map asciiLower == b.map asciiLower

/-- Largest index `i ≥ 1` such that `needle` occurs case-insensitively in
`run` starting at `i` — the backtracking result for a greedy
`[A-Z\s]+LITERAL` alternative. -/
def lastOccFrom1 (needle run : List Char) : Option Nat :=
  ((List.range (run.length + 1)).filter
    (fun i => decide (1 ≤ i) && ciEq ((run.drop i).take needle.length) needle)).getLast?

/-- Group 2 of `region_re`: `([A-Z\s]+REGION|PARTS OF [A-Z\s]+ COUNTY)` under
`(?i)`, matched at the start of `l`; alternatives are tried left to right and
each is greedy with minimal backtracking, so the literal tail is placed at its
last possible position inside the maximal class run. -/
def regionGroup2 (l : List Char) : Option (List Char) :=
  let run := l.takeWhile inRegionClass
  match lastOccFrom1 "region".toList run with
  | some i => some (run.take (i + 6))
  | none =>
    match ciPrefix "parts of ".toList l with
    | none => none
    | some r =>
      let run2 := r.takeWhile inRegionClass
      match lastOccFrom1 " county".toList run2 with
      | some i => some (l.take 9 ++ run2.take (i + 7))
      | none => none

/-- Backtracking of the greedy `\s*` that precedes group 2 in the literal
branch: the engine first consumes all the whitespace (`suffix` starts right
after it), then on failure releases one whitespace character at a time
(`wsRev` is the consumed run, last character first), so group 2 may start at a
released whitespace character. -/
def g2Backtrack (wsRev suffix : List Char) : Option (List Char) :=
  match regionGroup2 suffix with
  | some g => some g
  | none =>
    match wsRev with
    | [] => none
    | w :: rest => g2Backtrack rest (w :: suffix)

/-- One position of `(?i)(region\s*:\s*|^)([A-Z\s]+REGION|PARTS OF [A-Z\s]+ COUNTY)`:
group 1 tries the literal `region\s*:\s*` branch first — its trailing greedy
`\s*` backtracks via `g2Backtrack` — and the `^` branch applies only at
position 0 (`atStart`). -/
def regionGroupAt (atStart : Bool) (l : List Char) : Option (List Char) :=
  let viaLiteral :=
    match ciPrefix "region".toList l with
    | none => none
    | some r1 =>
      match r1.dropWhile isPySpace with
      | ':' :: r3 => g2Backtrack (r3.takeWhile isPySpace).reverse (r3.dropWhile isPySpace)
      | _ => none
  match viaLiteral with
  | some g => some g
  | none => if atStart then regionGroup2 l else none

/-- `re.search` for `region_re`: position 0 may use either branch of group 1,
later positions only the literal branch; group 2 is `.strip()`ed by the
caller. -/
def regionSearchAux : Bool → List Char → Option (List Char)
  | _, [] => none
  | atStart, c :: rest =>
    match regionGroupAt atStart (c :: rest) with
    | some g => some g
    | none => regionSearchAux false rest

/-- `region_re` applied by `re.search`, returning the stripped group 2. -/
def regionCapture (ln : String) : Option String :=
  (regionSearchAux true ln.toList).map pyStrip

/-! ### The record extractor `parse_pdf_for_outages` -/

/-- The in-progress record of the extractor's forward scan: the four local
variables `region`, `area`, `start`, `end` of `parse_pdf_for_outages`. -/
structure ScanState where
  region : String
  area : String
  start : String
  «end» : String
deriving Repr, DecidableEq

/-- All four fields empty: the initial state. -/
def initState : ScanState := ⟨"", "", "", ""⟩

/-- The inner `flush()`: emit a record iff at least one field is non-empty, and
reset the fields when a record was emitted. -/
def flushRec (sha1 : String → String) (pdf_url now_iso : String) (st : ScanState) :
    List Outage × ScanState :=
  if st.region = "" ∧ st.area = "" ∧ st.start = "" ∧ st.«end» = "" then ([], st)
  else
    ([{ id := hash_id sha1 (pdf_url ++ "|" ++ st.region ++ "|" ++ st.area ++ "|" ++
          st.start ++ "|" ++ st.«end»),
        region := st.region, area := st.area, startTime := st.start, endTime := st.«end»,
        sourceUrl := pdf_url, createdAt := now_iso }], ⟨"", "", "", ""⟩)

/-- One iteration of the `for ln in lines` loop: skip empty lines, then try
region, area, date and time patterns in that order. -/
def stepLine (sha1 : String → String) (pdf_url now_iso : String)
    (acc : List Outage × ScanState) (ln : String) : List Outage × ScanState :=
  if ln = "" then acc
  else
    match regionCapture ln with
    | some r =>
      let fl := flushRec sha1 pdf_url now_iso acc.2
      (acc.1 ++ fl.1, { fl.2 with region := r })
    | none =>
      match areaCapture ln with
      | some a => (acc.1, { acc.2 with area := a })
      | none =>
        match dateCapture ln with
        | some d => (acc.1, { acc.2 with start := d })
        | none =>
          match timeCapture ln with
          | some t => (acc.1, { acc.2 with «end» := t })
          | none => acc

/-- `[normalize_space(l) for l in text.splitlines()]`. -/
def pyNormLines (text : String) : List String :=
  (pySplitlines text).map normalize_space

/-- The structured scan of `parse_pdf_for_outages`: the loop over the
normalized lines followed by the final `flush()`. -/
def scanOutages (sha1 : String → String) (text pdf_url now_iso : String) : List Outage :=
  let res := (pyNormLines text).foldl (stepLine sha1 pdf_url now_iso) ([], initState)
  res.1 ++ (flushRec sha1 pdf_url now_iso res.2).1

/-- `parse_pdf_for_outages`: structured scan plus the one-generic-entry
fallback when nothing was parsed and the line list is non-empty.  `now_iso`
stands for the `datetime.utcnow()` timestamp and `sha1` for the sha1 library
call inside `hash_id`. -/
def parse_pdf_for_outages (sha1 : String → String) (text pdf_url now_iso : String) :
    List Outage :=
  let lines := pyNormLines text
  let outs := scanOutages sha1 text pdf_url now_iso
  if outs = [] ∧ lines ≠ [] then
    [{ id := hash_id sha1 pdf_url,
       region := (lines.headD "").take 120,
       area := "Planned maintenance",
       startTime := "", endTime := "",
       sourceUrl := pdf_url, createdAt := now_iso }]
  else outs

/-! ### HTML fallback parsers -/

/-- ASCII `str.lower()`. -/
def lowerStr (s : String) : String := String.mk (s.toList.map asciiLower)

/-- Exact prefix test on character lists. -/
def isPrefixChars : List Char → List Char → Bool
  | [], _ => true
  | _ :: _, [] => false
  | a :: as, b :: bs => a == b && isPrefixChars as bs

/-- Python's substring test `needle in hay` on character lists. -/
def containsChars (needle : List Char) : List Char → Bool
  | [] => isPrefixChars needle []
  | c :: rest => isPrefixChars needle (c :: rest) || containsChars needle rest

/-- The keyword list of `parse_list_section_bs4`. -/
def kplcKeywords : List String := ["Power Maintenance Notice", "Planned", "Interruption", "Outage"]

/-- `any(k.lower() in t.lower() for k in keywords)`. -/
def keywordHit (t : String) : Bool :=
  kplcKeywords.any (fun k => containsChars (lowerStr k).toList (lowerStr t).toList)

/-- Order-preserving deduplication via a `seen` set. -/
def dedupKeepOrder (seen : List String) : List String → List String
  | [] => []
  | t :: rest =>
    if seen.contains t then dedupKeepOrder seen rest
    else t :: dedupKeepOrder (t :: seen) rest

/-- `parse_list_section_bs4`, with the BeautifulSoup text-node extraction
(`soup.find_all(text=True)`) supplied as `textNodes` and the module-level
`DEFAULT_SOURCE_URL` as `source_url`: normalize each node, keep
keyword-bearing fragments longer than 12 characters, deduplicate preserving
order, cap at 50 and build coarse records. -/
def parse_list_section_bs4 (sha1 : String → String) (now_iso source_url : String)
    (textNodes : List String) : List Outage :=
  let texts := (textNodes.map normalize_space).filter
    (fun t => keywordHit t && decide (12 < t.length))
  let uniq := dedupKeepOrder [] texts
  (uniq.take 50).map (fun t =>
    { id := hash_id sha1 t, region := t.take 120, area := "Planned maintenance",
      startTime := "", endTime := "", sourceUrl := source_url, createdAt := now_iso })

/-- One attempt of `(?i)(power\s+maintenance\s+notice[^<\n\r]*)` at the head of
`l`; on success returns the matched text and the remainder of the input. -/
def pmnAt (l : List Char) : Option (List Char × List Char) :=
  match ciPrefix "power".toList l with
  | none => none
  | some r1 =>
    let w1 := r1.takeWhile isPySpace
    if w1.isEmpty then none
    else
      match ciPrefix "maintenance".toList (r1.drop w1.length) with
      | none => none
      | some r2 =>
        let w2 := r2.takeWhile isPySpace
        if w2.isEmpty then none
        else
          match ciPrefix "notice".toList (r2.drop w2.length) with
          | none => none
          | some r3 =>
            let tailRun := r3.takeWhile (fun c => c != '<' && c != '\n' && c != '\r')
            let rest := r3.drop tailRun.length
            some (l.take (l.length - rest.length), rest)

/-- `re.findall` driver for the pattern above: leftmost, non-overlapping
matches; the fuel argument (initially the input length) only bounds the
recursion and is never exhausted since every step consumes input. -/
def pmnFindAllAux : Nat → List Char → List (List Char)
  | 0, _ => []
  | _ + 1, [] => []
  | fuel + 1, c :: rest =>
    match pmnAt (c :: rest) with
    | some (m, after) => m :: pmnFindAllAux fuel after
    | none => pmnFindAllAux fuel rest

/-- All matches of the `parse_with_regex` pattern. -/
def pmnFindAll (l : List Char) : List (List Char) := pmnFindAllAux l.length l

/-- `parse_with_regex`: raw regex keyword scan of the HTML, capped at 50
matches. -/
def parse_with_regex (sha1 : String → String) (now_iso source_url : String)
    (html : String) : List Outage :=
  ((pmnFindAll html.toList).take 50).map (fun m =>
    let t := normalize_space (String.mk m)
    { id := hash_id sha1 t, region := t.take 120, area := "Planned maintenance",
      startTime := "", endTime := "", sourceUrl := source_url, createdAt := now_iso })

/-! ### Deduplicator / sorter -/

/-- `dedup[it["id"]] = it` on an insertion-ordered dictionary represented as a
list: replace the value at an existing key in place, else append. -/
def updById : List Outage → Outage → List Outage
  | [], it => [it]
  | x :: rest, it => if x.id == it.id then it :: rest else x :: updById rest it

/-- Python string comparison (`<=`) on character lists: lexicographic by
Unicode code point. -/
def listLePoints : List Char → List Char → Bool
  | [], _ => true
  | _ :: _, [] => false
  | a :: as, b :: bs =>
    if a.toNat < b.toNat then true
    else if b.toNat < a.toNat then false
    else listLePoints as bs

/-- Python string comparison `a <= b`. -/
def pyStrLe (a b : String) : Bool :=
  listLePoints a.toList b.toList

/-- `merge_and_sort`: last-write-wins deduplication by `id`, then a stable
sort descending by `createdAt` string comparison (Python's
`sorted(..., key=createdAt, reverse=True)`; every stable sort computes the
same list, here insertion sort). -/
def merge_and_sort (items : List Outage) : List Outage :=
  List.insertionSort (fun a b => pyStrLe b.createdAt a.createdAt = true) (items.foldl updById [])

/-! ### JSON payload (`json.dumps(items, ensure_ascii=False, indent=2)`) -/

/-- Lower-case hex digit. -/
def hexDigitCh (n : Nat) : Char :=
  if n < 10 then Char.ofNat (48 + n) else Char.ofNat (87 + n)

/-- JSON string escaping as performed by `json.dumps` with
`ensure_ascii=False`. -/
def jsonEscapeChar (c : Char) : List Char :=
  if c == '"' then ['\\', '"']
  else if c == '\\' then ['\\', '\\']
  else if c == '\n' then ['\\', 'n']
  else if c == '\r' then ['\\', 'r']
  else if c == '\t' then ['\\', 't']
  else if c == '\x08' then ['\\', 'b']
  else if c == '\x0c' then ['\\', 'f']
  else if c.toNat < 32 then ['\\', 'u', '0', '0', hexDigitCh (c.toNat / 16), hexDigitCh (c.toNat % 16)]
  else [c]

/-- A JSON string literal. -/
def jsonStr (s : String) : String :=
  "\"" ++ String.mk ((s.toList.map jsonEscapeChar).flatten) ++ "\""

/-- One record at `indent=2` (keys in the insertion order used by both record
builders). -/
def dumpOutage (o : Outage) : String :=
  "  \x7b\n    \"id\": " ++ jsonStr o.id ++
  ",\n    \"region\": " ++ jsonStr o.region ++
  ",\n    \"area\": " ++ jsonStr o.area ++
  ",\n    \"startTime\": " ++ jsonStr o.startTime ++
  ",\n    \"endTime\": " ++ jsonStr o.endTime ++
  ",\n    \"sourceUrl\": " ++ jsonStr o.sourceUrl ++
  ",\n    \"createdAt\": " ++ jsonStr o.createdAt ++ "\n  \x7d"

/-- The serialized JSON array; `[]` for the empty list. -/
def jsonDumpOutages : List Outage → String
  | [] => "[]"
  | x :: xs => "[\n" ++ String.intercalate ",\n" ((x :: xs).map dumpOutage) ++ "\n]"

/-! ### The fetch orchestrator `main` -/

/-- External collaborators of the fetcher's `main`: the sha1 library, the
extraction timestamp, the module-level `DEFAULT_SOURCE_URL`, the outcome of
`http_get`, BeautifulSoup's pdf-link extraction (`extract_pdf_links_bs4`,
taking html and base url), `fetch_pdf_text` per pdf url, and BeautifulSoup's
text-node listing used by `parse_list_section_bs4`.  `Except.error` models a
raised exception. -/
structure FetchEnv where
  sha1 : String → String
  now_iso : String
  defaultSource : String
  httpRes : Except String String
  pdfLinks : String → String → List String
  pdfText : String → Except String String
  findTexts : String → Except String (List String)

/-- The html `main` works on: the fetched page, or `""` when `http_get`
raised (the exception is caught and only a warning is printed). -/
def mainHtml (env : FetchEnv) : String :=
  match env.httpRes with
  | .ok h => h
  | .error _ => ""

/-- Strategy (a): parse each pdf's text through the record extractor; a failed
fetch or empty text skips that pdf. -/
def pdfStrategyItems (env : FetchEnv) (links : List String) : List Outage :=
  links.foldl (fun acc pdf =>
    match env.pdfText pdf with
    | .error _ => acc
    | .ok txt =>
      if txt = "" then acc
      else acc ++ parse_pdf_for_outages env.sha1 txt pdf env.now_iso) []

/-- Strategy (b): visible page-text scan; a raised exception leaves the item
list empty. -/
def htmlScanItems (env : FetchEnv) (html : String) : List Outage :=
  match env.findTexts html with
  | .error _ => []
  | .ok ts => parse_list_section_bs4 env.sha1 env.now_iso env.defaultSource ts

/-- The item-collection phase of `main`: pdf strategy (capped at 15 pdfs) when
any pdf links were found, else the visible-text scan, else the raw regex
scan. -/
def mainItems (env : FetchEnv) (source : String) : List Outage :=
  let html := mainHtml env
  let links := env.pdfLinks html source
  if links.isEmpty then
    let items := htmlScanItems env html
    if items.isEmpty then parse_with_regex env.sha1 env.now_iso env.defaultSource html
    else items
  else pdfStrategyItems env (links.take 15)

/-- `main` up to its observable outcome: the JSON payload written to the
output (and mirror) path, and the process exit code.  Write failures are
caught and logged, so the returned code is the constant `0` of the source. -/
def mainRun (env : FetchEnv) (source : String) : String × Nat :=
  (jsonDumpOutages (merge_and_sort (mainItems env source)), 0)

/-! ### The trainer -/

/-- The trainer's `main` (`services/prediction/train_from_parquet.py`): the
pipeline `load_and_preprocess_data` → `train_model` →
`save_model_and_artifacts` runs inside a single try/except; any raised
exception (modelled by `Except.error`) leads to `sys.exit(1)`, otherwise the
process ends normally with code 0. -/
def trainerMain {α β : Type} (load : Except String α) (train : α → Except String β)
    (save : β → Except String Unit) : Nat :=
  match load with
  | .error _ => 1
  | .ok d =>
    match train d with
    | .error _ => 1
    | .ok t =>
      match save t with
      | .error _ => 1
      | .ok _ => 0

/-- The parsed trainer CLI configuration
(`src/services/prediction/train_from_parquet.py`, `__main__`). -/
structure TrainerConfig where
  input : String
  output : String
  sequence_length : Int
deriving Repr, DecidableEq

/-- argparse's negative-number matcher `^-\d+$|^-\d*\.\d+$`. -/
def negativeNumberLike (v : String) : Bool :=
  match v.toList with
  | '-' :: rest =>
    (!rest.isEmpty && rest.all isDigitCh) ||
    (match rest.dropWhile isDigitCh with
     | '.' :: frac => !frac.isEmpty && frac.all isDigitCh
     | _ => false)
  | _ => false

/-- A token argparse classifies as an option rather than as a value: it starts
with `-`, is longer than the bare `-`, does not look like a negative number
(this parser has no negative-number-like option strings), and contains no
space. -/
def looksLikeOption (v : String) : Bool :=
  match v.toList with
  | [] => false
  | c :: rest =>
    c == '-' && !rest.isEmpty && !negativeNumberLike v && !(v.toList.contains ' ')

/-- Digits-only string to a number. -/
def parseNatDigits (l : List Char) : Option Nat :=
  if l.isEmpty || !(l.all isDigitCh) then none
  else some (l.foldl (fun acc c => acc * 10 + (c.toNat - 48)) 0)

/-- Python `int(v)` on the shapes argparse feeds it: optional sign then
digits. -/
def pyParseInt (v : String) : Option Int :=
  match v.toList with
  | '-' :: rest => (parseNatDigits rest).map (fun n => -(n : Int))
  | '+' :: rest => (parseNatDigits rest).map (fun n => (n : Int))
  | l => (parseNatDigits l).map (fun n => (n : Int))

/-- Argument loop of the trainer's argparse declarations: `--input` (required),
`--output` (default `./models`), `--sequence_length` (type int, default 24);
anything else is rejected, as is a flag without a value or a non-integer
sequence length. -/
def parseArgsGo : List String → Option String → String → Int → Except String TrainerConfig
  | [], inp, out, seq =>
    (match inp with
     | some i => .ok ⟨i, out, seq⟩
     | none => .error "the following arguments are required: --input")
  | "--input" :: v :: rest, _, out, seq =>
    if looksLikeOption v then .error "argument --input: expected one argument"
    else parseArgsGo rest (some v) out seq
  | "--output" :: v :: rest, inp, _, seq =>
    if looksLikeOption v then .error "argument --output: expected one argument"
    else parseArgsGo rest inp v seq
  | "--sequence_length" :: v :: rest, inp, out, _ =>
    if looksLikeOption v then .error "argument --sequence_length: expected one argument"
    else
      (match pyParseInt v with
       | some n => parseArgsGo rest inp out n
       | none => .error "argument --sequence_length: invalid int value")
  | ["--input"], _, _, _ => .error "argument --input: expected one argument"
  | ["--output"], _, _, _ => .error "argument --output: expected one argument"
  | ["--sequence_length"], _, _, _ => .error "argument --sequence_length: expected one argument"
  | a :: _, _, _, _ => .error ("unrecognized arguments: " ++ a)

/-- The trainer CLI parser with argparse's defaults. -/
def parseTrainerArgs (argv : List String) : Except String TrainerConfig :=
  parseArgsGo argv none "./models" 24

/-! ### Spec-side predicate and invariants used by the claims -/

/-- Exactly `n` digits as a prefix; returns the rest. -/
def digitsN : Nat → List Char → Option (List Char)
  | 0, l => some l
  | _ + 1, [] => none
  | n + 1, c :: rest => if isDigitCh c then digitsN n rest else none

/-- Time-zone suffix: empty, `Z`, or a `+HH:MM` / `-HH:MM` offset. -/
def isoZone : List Char → Bool
  | [] => true
  | ['Z'] => true
  | c :: r =>
    (c == '+' || c == '-') &&
    (match digitsN 2 r with
     | some (':' :: r2) =>
       (match digitsN 2 r2 with
        | some [] => true
        | _ => false)
     | _ => false)

/-- Optional fractional seconds then a zone. -/
def isoFrac : List Char → Bool
  | '.' :: r =>
    let ds := r.takeWhile isDigitCh
    !ds.isEmpty && isoZone (r.drop ds.length)
  | r => isoZone r

/-- Optional `:SS` seconds then fraction/zone. -/
def isoSeconds : List Char → Bool
  | ':' :: r =>
    (match digitsN 2 r with
     | some r2 => isoFrac r2
     | none => false)
  | r => isoZone r

/-- `HH:MM` then optional seconds/fraction/zone. -/
def isoTime (l : List Char) : Bool :=
  match digitsN 2 l with
  | some (':' :: r1) =>
    (match digitsN 2 r1 with
     | some r2 => isoSeconds r2
     | none => false)
  | _ => false

/-- Modelled from the spec: an ISO-8601 string, as the spec labels
`startTime`/`endTime` ("ISO-8601 string or empty"): a `YYYY-MM-DD` date,
optionally followed by `THH:MM[:SS[.ffffff]]` and an optional `Z` or signed
`HH:MM` offset — the shapes `datetime.isoformat()` produces. -/
def specIso8601 (s : String) : Bool :=
  match digitsN 4 s.toList with
  | some ('-' :: r1) =>
    (match digitsN 2 r1 with
     | some ('-' :: r2) =>
       (match digitsN 2 r2 with
        | some [] => true
        | some ('T' :: r3) => isoTime r3
        | _ => false)
     | _ => false)
  | _ => false

/-- The scan-state part of the raw-capture invariant: `start` and `end` are
empty or were captured by the date / time-range matcher from some line of
`L`. -/
def stInv (L : List String) (st : ScanState) : Prop :=
  (st.start = "" ∨ ∃ ln ∈ L, dateCapture ln = some st.start) ∧
  (st.«end» = "" ∨ ∃ ln ∈ L, timeCapture ln = some st.«end»)

/-- The record part of the raw-capture invariant: `startTime`/`endTime` are
empty or the raw text captured by the date / time-range matcher from some line
of `L`. -/
def outInv (L : List String) (o : Outage) : Prop :=
  (o.startTime = "" ∨ ∃ ln ∈ L, dateCapture ln = some o.startTime) ∧
  (o.endTime = "" ∨ ∃ ln ∈ L, timeCapture ln = some o.endTime)

/-- The identifier of a record, as keyed on by the deduplicating dictionary. -/
def getById (l : List Outage) (i : String) : Option Outage :=
  l.find? (fun x => x.id == i)

/-- A fetch environment whose `http_get` raises and whose remaining
collaborators find nothing. -/
def envNoFetch : FetchEnv :=
  { sha1 := fun _ => "h", now_iso := "t", defaultSource := "d",
    httpRes := .error "unreachable", pdfLinks := fun _ _ => [],
    pdfText := fun _ => .error "x", findTexts := fun _ => .ok [] }

/-- A fetch environment in which the page yields one pdf link. -/
def envPdf : FetchEnv :=
  { sha1 := fun _ => "h", now_iso := "t", defaultSource := "d",
    httpRes := .ok "<a href=x.pdf>", pdfLinks := fun _ _ => ["x.pdf"],
    pdfText := fun _ => .error "x", findTexts := fun _ => .ok [] }

/-- A fetch environment with no pdf links and one keyword-bearing visible
text fragment. -/
def envListOnly : FetchEnv :=
  { sha1 := fun _ => "h", now_iso := "t", defaultSource := "d",
    httpRes := .ok "page", pdfLinks := fun _ _ => [],
    pdfText := fun _ => .error "x",
    findTexts := fun _ => .ok ["Power Maintenance Notice at Nairobi West"] }

theorem normalize_space_check : normalize_space "  a\t\nb  c " = "a b c" := by decide

theorem pySplitlines_check :
    pySplitlines "a\r\nb\n\nc" = ["a", "b", "", "c"] ∧ pySplitlines "" = [] := by decide

theorem matcher_check1 :
    regionCapture "REGION : NAIROBI REGION" = some "NAIROBI REGION" ∧
    regionCapture "NAIROBI REGION: blah" = some "NAIROBI REGION" ∧
    regionCapture "Date : Sunday 08.09.2024" = none ∧
    regionCapture "REGION" = none ∧
    regionCapture "Parts of Kiambu County and beyond" = some "Parts of Kiambu County" := by decide

theorem matcher_check3 :
    regionCapture "X REGION Y REGION here" = some "X REGION Y REGION" ∧
    regionCapture "Area : NAIROBI REGION" = none ∧
    dateCapture "Date: May 1.2.20245" = some "May 1.2.2024" ∧
    dateCapture "Date: May 123.4.2024" = none ∧
    timeCapture "Time: 9.00 AM to 5" = some "9.00 AM" ∧
    timeCapture "Time :" = none ∧
    (pmnFindAll ("Power  Maintenance notice for <b>Nairobi and power maintenance notice two").toList).map
        (fun m => String.mk m) =
      ["Power  Maintenance notice for ", "power maintenance notice two"] := by decide

theorem matcher_check2 :
    areaCapture "Area : Kileleshwa, Kangemi" = some "Kileleshwa, Kangemi" ∧
    areaCapture "Some Area : x" = none ∧
    dateCapture "Date : Sunday 08.09.2024" = some "Sunday 08.09.2024" ∧
    dateCapture "the date: May 1.2.2024 yes" = some "May 1.2.2024" ∧
    dateCapture "Date : 08.09.2024" = none ∧
    timeCapture "Time : 9.00 A.M. – 5.00 P.M." = some "9.00 A.M. – 5.00 P.M." ∧
    timeCapture "Time : xyz" = some "" ∧
    timeCapture "no time here" = none := by decide


theorem matcher_check4 :
    regionCapture "REGION : REGION" = some "REGION" ∧
    regionCapture "Region: REGION" = some "REGION" ∧
    regionCapture "REGION: REGIONAL BLACKOUT" = some "REGION" ∧
    regionCapture "REGION :  A REGION" = some "A REGION" ∧
    regionCapture "Region  :   REGION" = some "REGION" ∧
    regionCapture "REGION :\tREGION" = some "REGION" ∧
    regionCapture "REGION :" = none ∧
    regionCapture "region:region" = none ∧
    regionCapture "Region : x" = none ∧
    regionCapture "xx region :  REGION yy" = some "xx region" ∧
    regionCapture "a region : parts of x county" = some "a region" ∧
    regionCapture "AREA: THE REGION" = none ∧
    regionCapture "THE REGION" = some "THE REGION" ∧
    regionCapture "Region:  Parts of Kiambu County zz" = some "Parts of Kiambu County" := by decide

theorem argparse_check :
    parseTrainerArgs ["--input", "-3"] = .ok ⟨"-3", "./models", 24⟩ ∧
    parseTrainerArgs ["--input", "-abc"] = .error "argument --input: expected one argument" ∧
    parseTrainerArgs ["--input", "-"] = .ok ⟨"-", "./models", 24⟩ ∧
    parseTrainerArgs ["--input", "-3.5"] = .ok ⟨"-3.5", "./models", 24⟩ ∧
    parseTrainerArgs ["--input", "a", "--sequence_length", "-7"] = .ok ⟨"a", "./models", -7⟩ :=
  ⟨rfl, rfl, rfl, rfl, rfl⟩

set_option maxRecDepth 8000 in
example :
    parse_pdf_for_outages (fun _ => "h") "REGION : NAIROBI REGION\nDate : Sunday 08.09.2024" "u" "t" =
    [{ id := "h", region := "NAIROBI REGION", area := "", startTime := "Sunday 08.09.2024",
       endTime := "", sourceUrl := "u", createdAt := "t" }] := by decide

set_option maxRecDepth 8000 in
example : parse_pdf_for_outages (fun _ => "h") "hello world\nsecond line" "u" "t" =
    [{ id := "h", region := "hello world", area := "Planned maintenance", startTime := "",
       endTime := "", sourceUrl := "u", createdAt := "t" }] := by decide

example : parse_pdf_for_outages (fun _ => "h") "" "u" "t" = [] := by decide

example : parseTrainerArgs ["--input", "a.parquet"] = .ok ⟨"a.parquet", "./models", 24⟩ := rfl

example : parseTrainerArgs ["--input", "a", "--output", "o", "--sequence_length", "12"] =
    .ok ⟨"a", "o", 12⟩ := rfl

example : parseTrainerArgs ["--output", "o"] =
    .error "the following arguments are required: --input" := rfl

example :
    merge_and_sort [⟨"a", "", "", "", "", "", "2"⟩, ⟨"b", "", "", "", "", "", "3"⟩,
                    ⟨"a", "x", "", "", "", "", "1"⟩] =
    [⟨"b", "", "", "", "", "", "3"⟩, ⟨"a", "x", "", "", "", "", "1"⟩] := by decide

set_option maxRecDepth 8000 in
example : parse_with_regex (fun _ => "h") "t" "s" "Power  Maintenance notice for <b>Nairobi" =
    [{ id := "h", region := "Power Maintenance notice for", area := "Planned maintenance",
       startTime := "", endTime := "", sourceUrl := "s", createdAt := "t" }] := by decide

/-! ### Helper lemmas -/

set_option maxHeartbeats 1000000 in
theorem splitlinesAux_ne_nil (l acc : List Char) (h : l ≠ [] ∨ acc ≠ []) :
    splitlinesAux l acc ≠ [] := by
  induction l, acc using splitlinesAux.induct <;> simp_all [splitlinesAux]

theorem pySplitlines_ne_nil (text : String) (h : text ≠ "") : pySplitlines text ≠ [] := by
  have hd : text.toList ≠ [] := by
    intro hnil
    apply h
    have h1 : text.toList.asString = text := String.asString_toList text
    rw [hnil] at h1
    rw [← h1]
    decide
  intro hpn
  unfold pySplitlines at hpn
  rcases he : splitlinesAux text.toList [] with _ | ⟨a, t⟩
  · exact splitlinesAux_ne_nil text.toList [] (Or.inl hd) he
  · rw [he] at hpn; simp at hpn

theorem pyNormLines_ne_nil (text : String) (h : text ≠ "") : pyNormLines text ≠ [] := by
  intro hc
  unfold pyNormLines at hc
  cases he : pySplitlines text with
  | nil => exact pySplitlines_ne_nil text h he
  | cons a t => rw [he] at hc; simp at hc

theorem flushRec_reset (sha1 : String → String) (url now : String) (st : ScanState) (r : String) :
    { (flushRec sha1 url now st).2 with region := r } = ScanState.mk r "" "" "" := by
  unfold flushRec
  split
  · rename_i hcond
    obtain ⟨h1, h2, h3, h4⟩ := hcond
    cases st
    simp_all
  · rfl

/-! ### The claims -/

/-- Claim C2: the structured scan's `flush` emits a record iff at least one of
the four in-progress fields region/area/start/end is non-empty; a flush with
all four empty emits nothing (and a flush never emits more than one record). -/
theorem c2_flush_emits_iff (sha1 : String → String) (url now : String) (st : ScanState) :
    ((flushRec sha1 url now st).1 = [] ↔
      st.region = "" ∧ st.area = "" ∧ st.start = "" ∧ st.«end» = "") ∧
    (flushRec sha1 url now st).1.length ≤ 1 := by
  unfold flushRec
  split <;> simp_all

/-- Claim C1: `parse_pdf_for_outages` is a single forward scan (a left fold)
over the normalized lines, testing each non-empty line against the patterns in
priority order region-marker → area-marker → date → time-range; a region match
flushes any in-progress record and starts a new one whose region is the
matched text, while area/date/time matches only populate the corresponding
field (area / start / end) of the in-progress record without closing it. -/
theorem c1_scan_priority (sha1 : String → String) (url now : String)
    (out : List Outage) (st : ScanState) (ln : String) :
    (∀ text, scanOutages sha1 text url now =
      (let res := (pyNormLines text).foldl (stepLine sha1 url now) ([], initState)
       res.1 ++ (flushRec sha1 url now res.2).1)) ∧
    (ln = "" → stepLine sha1 url now (out, st) ln = (out, st)) ∧
    (∀ r, ln ≠ "" → regionCapture ln = some r →
      stepLine sha1 url now (out, st) ln =
        (out ++ (flushRec sha1 url now st).1, ScanState.mk r "" "" "")) ∧
    (∀ a, ln ≠ "" → regionCapture ln = none → areaCapture ln = some a →
      stepLine sha1 url now (out, st) ln = (out, ScanState.mk st.region a st.start st.«end»)) ∧
    (∀ d, ln ≠ "" → regionCapture ln = none → areaCapture ln = none → dateCapture ln = some d →
      stepLine sha1 url now (out, st) ln = (out, ScanState.mk st.region st.area d st.«end»)) ∧
    (∀ t, ln ≠ "" → regionCapture ln = none → areaCapture ln = none → dateCapture ln = none →
      timeCapture ln = some t →
      stepLine sha1 url now (out, st) ln = (out, ScanState.mk st.region st.area st.start t)) ∧
    (regionCapture ln = none → areaCapture ln = none → dateCapture ln = none →
      timeCapture ln = none → stepLine sha1 url now (out, st) ln = (out, st)) := by
  refine ⟨fun _ => rfl, fun he => by simp [stepLine, he], ?_, ?_, ?_, ?_, ?_⟩
  · intro r hne hr
    simp [stepLine, hne, hr, flushRec_reset]
  · intro a hne hr ha
    simp [stepLine, hne, hr, ha]
  · intro d hne hr ha hd
    simp [stepLine, hne, hr, ha, hd]
  · intro t hne hr ha hd ht
    simp [stepLine, hne, hr, ha, hd, ht]
  · intro hr ha hd ht
    by_cases he : ln = "" <;> simp [stepLine, he, hr, ha, hd, ht]

set_option maxRecDepth 8000 in
/-- Witness for C1: each branch of the step characterization at a concrete
line. -/
theorem c1_scan_priority_witness :
    stepLine (fun s => s) "u" "t" ([], ⟨"", "A", "", ""⟩) "REGION : NAIROBI REGION" =
      ([{ id := "u||A||", region := "", area := "A", startTime := "", endTime := "",
          sourceUrl := "u", createdAt := "t" }], ⟨"NAIROBI REGION", "", "", ""⟩) ∧
    stepLine (fun s => s) "u" "t" ([], ⟨"", "A", "", ""⟩) "REGION: REGIONAL BLACKOUT" =
      ([{ id := "u||A||", region := "", area := "A", startTime := "", endTime := "",
          sourceUrl := "u", createdAt := "t" }], ⟨"REGION", "", "", ""⟩) ∧
    stepLine (fun s => s) "u" "t" ([], initState) "Area : Kileleshwa" =
      ([], ⟨"", "Kileleshwa", "", ""⟩) ∧
    stepLine (fun s => s) "u" "t" ([], initState) "Date : Sunday 08.09.2024" =
      ([], ⟨"", "", "Sunday 08.09.2024", ""⟩) ∧
    stepLine (fun s => s) "u" "t" ([], initState) "Time : 9.00 A.M. - 5.00 P.M." =
      ([], ⟨"", "", "", "9.00 A.M. - 5.00 P.M."⟩) ∧
    stepLine (fun s => s) "u" "t" ([], ⟨"R", "", "", ""⟩) "" = ([], ⟨"R", "", "", ""⟩) ∧
    stepLine (fun s => s) "u" "t" ([], initState) "no markers here" = ([], initState) :=
  ⟨(c1_scan_priority (fun s => s) "u" "t" [] ⟨"", "A", "", ""⟩ "REGION : NAIROBI REGION").2.2.1
      "NAIROBI REGION" (by decide) (by decide),
   (c1_scan_priority (fun s => s) "u" "t" [] ⟨"", "A", "", ""⟩ "REGION: REGIONAL BLACKOUT").2.2.1
      "REGION" (by decide) (by decide),
   (c1_scan_priority (fun s => s) "u" "t" [] initState "Area : Kileleshwa").2.2.2.1
      "Kileleshwa" (by decide) (by decide) (by decide),
   (c1_scan_priority (fun s => s) "u" "t" [] initState "Date : Sunday 08.09.2024").2.2.2.2.1
      "Sunday 08.09.2024" (by decide) (by decide) (by decide) (by decide),
   (c1_scan_priority (fun s => s) "u" "t" [] initState "Time : 9.00 A.M. - 5.00 P.M.").2.2.2.2.2.1
      "9.00 A.M. - 5.00 P.M." (by decide) (by decide) (by decide) (by decide) (by decide),
   (c1_scan_priority (fun s => s) "u" "t" [] ⟨"R", "", "", ""⟩ "").2.1 (by decide),
   (c1_scan_priority (fun s => s) "u" "t" [] initState "no markers here").2.2.2.2.2.2
      (by decide) (by decide) (by decide) (by decide)⟩

/-- Claim C3: whenever the structured scan yields zero records,
`parse_pdf_for_outages` returns zero records on empty input and exactly one
fallback record — region a truncation of the (normalized) first line, empty
startTime/endTime — on non-empty input. -/
theorem c3_fallback (sha1 : String → String) (text url now : String)
    (h : scanOutages sha1 text url now = []) :
    (text = "" → parse_pdf_for_outages sha1 text url now = []) ∧
    (text ≠ "" → parse_pdf_for_outages sha1 text url now =
      [{ id := hash_id sha1 url,
         region := ((pyNormLines text).headD "").take 120,
         area := "Planned maintenance", startTime := "", endTime := "",
         sourceUrl := url, createdAt := now }]) := by
  constructor
  · intro he; subst he
    have hl : pyNormLines "" = [] := rfl
    simp [parse_pdf_for_outages, h, hl]
  · intro hne
    have hl := pyNormLines_ne_nil text hne
    simp [parse_pdf_for_outages, h, hl]

set_option maxRecDepth 8000 in
/-- Witness for C3: a markerless non-empty text yields exactly the fallback
record. -/
theorem c3_fallback_witness :
    scanOutages (fun _ => "x") "hello" "u" "t" = [] ∧
    parse_pdf_for_outages (fun _ => "x") "hello" "u" "t" =
      [{ id := "x", region := "hello", area := "Planned maintenance", startTime := "",
         endTime := "", sourceUrl := "u", createdAt := "t" }] :=
  ⟨by decide, (c3_fallback (fun _ => "x") "hello" "u" "t" (by decide)).2 (by decide)⟩

/-- Claim C5: the fetcher's `main` returns exit code 0 for every environment —
fetching and parsing failures are swallowed — and when the HTTP fetch failed
and no items were parsed, the payload written to the output path is the empty
JSON array `[]`. -/
theorem c5_fetcher_always_succeeds (env : FetchEnv) (source : String) :
    (mainRun env source).2 = 0 ∧
    (∀ e, env.httpRes = .error e → mainItems env source = [] →
      (mainRun env source).1 = "[]") := by
  refine ⟨rfl, ?_⟩
  intro e he hitems
  show jsonDumpOutages (merge_and_sort (mainItems env source)) = "[]"
  rw [hitems]
  rfl

/-- Witness for C5: a concrete environment with an unreachable source URL. -/
theorem c5_fetcher_always_succeeds_witness :
    envNoFetch.httpRes = .error "unreachable" ∧ mainItems envNoFetch "src" = [] ∧
    (mainRun envNoFetch "src").1 = "[]" ∧ (mainRun envNoFetch "src").2 = 0 :=
  ⟨rfl, by decide,
   (c5_fetcher_always_succeeds envNoFetch "src").2 "unreachable" rfl (by decide),
   (c5_fetcher_always_succeeds envNoFetch "src").1⟩

/-- Claim C6: the orchestrator's strategies are tried in a fixed order — with
any pdf links present only the pdf strategy runs, on at most the first 15
links; with no pdf links the visible-text scan runs; the raw regex scan runs
only when that scan yields no items. -/
theorem c6_strategy_order (env : FetchEnv) (source : String) :
    (env.pdfLinks (mainHtml env) source ≠ [] →
      mainItems env source =
        pdfStrategyItems env ((env.pdfLinks (mainHtml env) source).take 15) ∧
      ((env.pdfLinks (mainHtml env) source).take 15).length ≤ 15) ∧
    (env.pdfLinks (mainHtml env) source = [] →
      htmlScanItems env (mainHtml env) ≠ [] →
      mainItems env source = htmlScanItems env (mainHtml env)) ∧
    (env.pdfLinks (mainHtml env) source = [] →
      htmlScanItems env (mainHtml env) = [] →
      mainItems env source =
        parse_with_regex env.sha1 env.now_iso env.defaultSource (mainHtml env)) := by
  refine ⟨?_, ?_, ?_⟩
  · intro hne
    have hb : (env.pdfLinks (mainHtml env) source).isEmpty = false := by
      rcases hl : env.pdfLinks (mainHtml env) source with _ | ⟨a, t⟩
      · exact absurd hl hne
      · rfl
    constructor
    · simp [mainItems, hb]
    · rw [List.length_take]
      exact min_le_left _ _
  · intro hl hscan
    have hb : (htmlScanItems env (mainHtml env)).isEmpty = false := by
      rcases hs : htmlScanItems env (mainHtml env) with _ | ⟨a, t⟩
      · exact absurd hs hscan
      · rfl
    simp [mainItems, hl, hb]
  · intro hl hscan
    simp [mainItems, hl, hscan]

set_option maxRecDepth 8000 in
/-- Witness for C6: the three strategy branches at concrete environments. -/
theorem c6_strategy_order_witness :
    (mainItems envPdf "s" =
       pdfStrategyItems envPdf ((envPdf.pdfLinks (mainHtml envPdf) "s").take 15) ∧
     ((envPdf.pdfLinks (mainHtml envPdf) "s").take 15).length ≤ 15) ∧
    mainItems envListOnly "s" = htmlScanItems envListOnly (mainHtml envListOnly) ∧
    mainItems envNoFetch "s" =
      parse_with_regex envNoFetch.sha1 envNoFetch.now_iso envNoFetch.defaultSource
        (mainHtml envNoFetch) :=
  ⟨(c6_strategy_order envPdf "s").1 (by decide),
   (c6_strategy_order envListOnly "s").2.1 (by decide) (by decide),
   (c6_strategy_order envNoFetch "s").2.2 (by decide) (by decide)⟩

/-- Claim C8: the trainer's `main` exits 0 iff the pipeline load → train →
save raised no exception, and exits 1 otherwise — the exception is caught once
at the top level, with no step-level recovery. -/
theorem c8_trainer_exit {α β : Type} (load : Except String α)
    (train : α → Except String β) (save : β → Except String Unit) :
    (trainerMain load train save = 0 ↔
      ∃ d t, load = .ok d ∧ train d = .ok t ∧ save t = .ok ()) ∧
    (trainerMain load train save = 0 ∨ trainerMain load train save = 1) := by
  rcases hl : load with e | d
  · simp [trainerMain, hl]
  · rcases ht : train d with e' | t
    · simp [trainerMain, hl, ht]
    · rcases hs : save t with e'' | u
      · simp [trainerMain, hl, ht, hs]
      · cases u
        simp [trainerMain, hl, ht, hs]

/-- Claim C9: the trainer CLI accepts an input parquet path, an output
directory, and an optional sequence-length argument (with argparse defaults
`./models` and 24). -/
theorem c9_trainer_cli (p d s : String) (n : Int)
    (hp : looksLikeOption p = false) (hd : looksLikeOption d = false)
    (hs : looksLikeOption s = false) (hn : pyParseInt s = some n) :
    parseTrainerArgs ["--input", p] = .ok ⟨p, "./models", 24⟩ ∧
    parseTrainerArgs ["--input", p, "--output", d] = .ok ⟨p, d, 24⟩ ∧
    parseTrainerArgs ["--input", p, "--output", d, "--sequence_length", s] =
      .ok ⟨p, d, n⟩ := by
  refine ⟨?_, ?_, ?_⟩ <;> simp [parseTrainerArgs, parseArgsGo, hp, hd, hs, hn]

/-- Witness for C9: a concrete command line. -/
theorem c9_trainer_cli_witness :
    looksLikeOption "a.parquet" = false ∧ looksLikeOption "out" = false ∧
    looksLikeOption "12" = false ∧ pyParseInt "12" = some 12 ∧
    parseTrainerArgs ["--input", "a.parquet", "--output", "out", "--sequence_length", "12"] =
      .ok ⟨"a.parquet", "out", 12⟩ :=
  ⟨by decide, by decide, by decide, by decide,
   (c9_trainer_cli "a.parquet" "out" "12" 12 (by decide) (by decide) (by decide)
      (by decide)).2.2⟩

/-- Claim C10: both HTML fallback parsers return at most 50 records, whatever
the input contains. -/
theorem c10_fallback_caps (sha1 : String → String) (now src : String)
    (textNodes : List String) (html : String) :
    (parse_list_section_bs4 sha1 now src textNodes).length ≤ 50 ∧
    (parse_with_regex sha1 now src html).length ≤ 50 := by
  constructor
  · simp only [parse_list_section_bs4, List.length_map, List.length_take]
    omega
  · simp only [parse_with_regex, List.length_map, List.length_take]
    omega

/-! ### Lemmas about the deduplicator/sorter -/

theorem getById_updById (acc : List Outage) (it : Outage) (i : String) :
    getById (updById acc it) i = if it.id = i then some it else getById acc i := by
  induction acc with
  | nil =>
    by_cases h : it.id = i <;> simp [updById, getById, List.find?_cons, h]
  | cons x rest ih =>
    by_cases hx : x.id = it.id
    · simp only [updById]
      rw [if_pos (by simp [hx])]
      by_cases hi : it.id = i
      · simp [getById, List.find?_cons, hi]
      · have hxi : (x.id == i) = false := by simp [hx, hi]
        have hii : (it.id == i) = false := by simp [hi]
        simp [getById, List.find?_cons, hii, hxi, hi]
    · simp only [updById]
      rw [if_neg (by simp [hx])]
      by_cases hi : x.id = i
      · have hit : ¬ it.id = i := fun h => hx (hi.trans h.symm)
        simp [getById, List.find?_cons, hi, hit]
      · have hxi : (x.id == i) = false := by simp [hi]
        simp only [getById, List.find?_cons, hxi]
        simpa [getById] using ih
  
theorem getById_foldl (items : List Outage) (acc : List Outage) (i : String) :
    getById (items.foldl updById acc) i =
      (items.reverse.find? (fun x => x.id == i)).or (getById acc i) := by
  induction items generalizing acc with
  | nil => simp [getById]
  | cons x rest ih =>
    simp only [List.foldl_cons, List.reverse_cons]
    rw [ih, List.find?_append, getById_updById]
    rcases hf : rest.reverse.find? (fun x => x.id == i) with _ | r
    · by_cases h : x.id = i <;> simp [hf, List.find?_cons, h, Option.or]
    · simp [hf, Option.or]

theorem ids_updById_sub (acc : List Outage) (it : Outage) (y : String)
    (h : y ∈ (updById acc it).map (fun o => o.id)) :
    y ∈ acc.map (fun o => o.id) ∨ y = it.id := by
  induction acc with
  | nil =>
    simp [updById] at h
    exact Or.inr h
  | cons x rest ih =>
    simp only [updById] at h
    split at h
    · rcases List.mem_map.mp h with ⟨o, ho, rfl⟩
      rcases List.mem_cons.mp ho with rfl | ho2
      · exact Or.inr rfl
      · exact Or.inl (List.mem_map_of_mem _ (List.mem_cons_of_mem x ho2))
    · rcases List.mem_map.mp h with ⟨o, ho, rfl⟩
      rcases List.mem_cons.mp ho with rfl | ho2
      · exact Or.inl (List.mem_map_of_mem _ (List.mem_cons_self _ _))
      · rcases ih (List.mem_map_of_mem _ ho2) with h2 | h2
        · rw [List.map_cons]
          exact Or.inl (List.mem_cons_of_mem _ h2)
        · exact Or.inr h2

theorem nodup_ids_updById (acc : List Outage) (it : Outage)
    (h : (acc.map (fun o => o.id)).Nodup) :
    ((updById acc it).map (fun o => o.id)).Nodup := by
  induction acc with
  | nil => simp [updById]
  | cons x rest ih =>
    simp only [updById]
    split
    · rename_i hx
      have hx' : x.id = it.id := by simpa using hx
      simp only [List.map_cons, List.nodup_cons] at h ⊢
      exact ⟨by rw [← hx']; exact h.1, h.2⟩
    · rename_i hx
      simp only [List.map_cons, List.nodup_cons] at h ⊢
      refine ⟨?_, ih h.2⟩
      intro hmem
      rcases ids_updById_sub rest it x.id hmem with h2 | h2
      · exact h.1 h2
      · exact hx (by simp [h2])

theorem nodup_ids_foldl (items : List Outage) (acc : List Outage)
    (h : (acc.map (fun o => o.id)).Nodup) :
    ((items.foldl updById acc).map (fun o => o.id)).Nodup := by
  induction items generalizing acc with
  | nil => simpa using h
  | cons x rest ih =>
    simp only [List.foldl_cons]
    exact ih _ (nodup_ids_updById acc x h)

theorem getById_of_mem_nodup (l : List Outage) (o : Outage)
    (hnd : (l.map (fun x => x.id)).Nodup) (hmem : o ∈ l) : getById l o.id = some o := by
  induction l with
  | nil => simp at hmem
  | cons x rest ih =>
    simp only [List.map_cons, List.nodup_cons] at hnd
    rcases List.mem_cons.mp hmem with h | h
    · subst h
      simp [getById, List.find?_cons]
    · have hx : (x.id == o.id) = false := by
        simp only [beq_eq_false_iff_ne, ne_eq]
        intro heq
        exact hnd.1 (heq ▸ List.mem_map_of_mem (fun o => o.id) h)
      simp only [getById, List.find?_cons, hx]
      exact ih hnd.2 h

theorem listLePoints_total (xs ys : List Char) :
    listLePoints xs ys = true ∨ listLePoints ys xs = true := by
  induction xs generalizing ys with
  | nil => left; rfl
  | cons x xs ih =>
    cases ys with
    | nil => right; rfl
    | cons y ys =>
      rcases Nat.lt_trichotomy x.toNat y.toNat with h | h | h
      · left; simp [listLePoints, h]
      · have h2 : ¬ x.toNat < y.toNat := by omega
        have h3 : ¬ y.toNat < x.toNat := by omega
        rcases ih ys with h4 | h4
        · left; simp [listLePoints, h2, h3, h4]
        · right; simp [listLePoints, h2, h3, h4]
      · right; simp [listLePoints, h]

theorem listLePoints_trans (xs ys zs : List Char) (h1 : listLePoints xs ys = true)
    (h2 : listLePoints ys zs = true) : listLePoints xs zs = true := by
  induction xs generalizing ys zs with
  | nil => rfl
  | cons x xs ih =>
    cases ys with
    | nil => simp [listLePoints] at h1
    | cons y ys =>
      cases zs with
      | nil => simp [listLePoints] at h2
      | cons z zs =>
        by_cases hxy : x.toNat < y.toNat <;> by_cases hyz : y.toNat < z.toNat
        · simp [listLePoints, show x.toNat < z.toNat by omega]
        · by_cases hzy : z.toNat < y.toNat
          · simp [listLePoints, hyz, hzy] at h2
          · simp [listLePoints, show x.toNat < z.toNat by omega]
        · by_cases hyx : y.toNat < x.toNat
          · simp [listLePoints, hxy, hyx] at h1
          · simp [listLePoints, show x.toNat < z.toNat by omega]
        · by_cases hyx : y.toNat < x.toNat
          · simp [listLePoints, hxy, hyx] at h1
          · by_cases hzy : z.toNat < y.toNat
            · simp [listLePoints, hyz, hzy] at h2
            · have hxz : ¬ x.toNat < z.toNat := by omega
              have hzx : ¬ z.toNat < x.toNat := by omega
              simp only [listLePoints, if_neg hxy, if_neg hyx] at h1
              simp only [listLePoints, if_neg hyz, if_neg hzy] at h2
              simp only [listLePoints, if_neg hxz, if_neg hzx]
              exact ih ys zs h1 h2

instance : IsTotal Outage (fun a b => pyStrLe b.createdAt a.createdAt = true) :=
  ⟨fun a b => by
    rcases listLePoints_total b.createdAt.toList a.createdAt.toList with h | h
    · exact Or.inl h
    · exact Or.inr h⟩

instance : IsTrans Outage (fun a b => pyStrLe b.createdAt a.createdAt = true) :=
  ⟨fun _ _ _ hab hbc => listLePoints_trans _ _ _ hbc hab⟩

/-- Claim C4: `merge_and_sort` collapses records sharing an `id` to a single
record — a record is in the result exactly when it is the last input record
with its `id` — and the result is ordered descending by `createdAt` string
comparison. -/
theorem c4_merge_and_sort (items : List Outage) :
    List.Sorted (fun a b => pyStrLe b.createdAt a.createdAt = true) (merge_and_sort items) ∧
    ((merge_and_sort items).map (fun o => o.id)).Nodup ∧
    (∀ o : Outage, o ∈ merge_and_sort items ↔
      items.reverse.find? (fun x => x.id == o.id) = some o) := by
  have hperm :=
    List.perm_insertionSort (fun a b => pyStrLe b.createdAt a.createdAt = true)
      (items.foldl updById [])
  have hnd : ((items.foldl updById []).map (fun o => o.id)).Nodup :=
    nodup_ids_foldl items [] (by simp)
  refine ⟨List.sorted_insertionSort _ _, ?_, ?_⟩
  · exact ((hperm.map (fun o => o.id)).nodup_iff).mpr hnd
  · intro o
    constructor
    · intro hmem
      have hmem' : o ∈ items.foldl updById [] := hperm.mem_iff.mp hmem
      have h1 : getById (items.foldl updById []) o.id = some o :=
        getById_of_mem_nodup _ _ hnd hmem'
      have h2 := getById_foldl items [] o.id
      rw [h1] at h2
      rcases hf : items.reverse.find? (fun x => x.id == o.id) with _ | r
      · rw [hf] at h2
        simp [getById, Option.or] at h2
      · rw [hf] at h2
        simp [Option.or] at h2
        subst h2
        exact hf
    · intro hf
      have h2 := getById_foldl items [] o.id
      rw [hf] at h2
      have h3 : getById (items.foldl updById []) o.id = some o := by
        rw [h2]; rfl
      exact hperm.mem_iff.mpr (List.mem_of_find?_eq_some h3)

/-! ### Raw-capture invariant for the extractor's time fields -/

theorem flushRec_outInv (L : List String) (sha1 : String → String) (url now : String)
    (st : ScanState) (h : stInv L st) :
    (∀ o ∈ (flushRec sha1 url now st).1, outInv L o) ∧
    stInv L (flushRec sha1 url now st).2 := by
  unfold flushRec
  split
  · exact ⟨by simp, h⟩
  · constructor
    · intro o ho
      simp at ho
      subst ho
      exact ⟨h.1, h.2⟩
    · exact ⟨Or.inl rfl, Or.inl rfl⟩

theorem stepLine_inv (L : List String) (sha1 : String → String) (url now : String)
    (out : List Outage) (st : ScanState) (ln : String) (hln : ln ∈ L)
    (hout : ∀ o ∈ out, outInv L o) (hst : stInv L st) :
    (∀ o ∈ (stepLine sha1 url now (out, st) ln).1, outInv L o) ∧
    stInv L (stepLine sha1 url now (out, st) ln).2 := by
  unfold stepLine
  by_cases he : ln = ""
  · simp only [if_pos he]
    exact ⟨hout, hst⟩
  · rw [if_neg he]
    rcases hr : regionCapture ln with _ | r
    · rcases ha : areaCapture ln with _ | a
      · rcases hd : dateCapture ln with _ | d
        · rcases ht : timeCapture ln with _ | t
          · simp only [hr, ha, hd, ht]
            exact ⟨hout, hst⟩
          · simp only [hr, ha, hd, ht]
            exact ⟨hout, hst.1, Or.inr ⟨ln, hln, ht⟩⟩
        · simp only [hr, ha, hd]
          exact ⟨hout, Or.inr ⟨ln, hln, hd⟩, hst.2⟩
      · simp only [hr, ha]
        exact ⟨hout, hst⟩
    · simp only [hr]
      have hfl := flushRec_outInv L sha1 url now st hst
      constructor
      · intro o ho
        rcases List.mem_append.mp ho with h1 | h1
        · exact hout o h1
        · exact hfl.1 o h1
      · show stInv L { (flushRec sha1 url now st).2 with region := r }
        rw [flushRec_reset]
        exact ⟨Or.inl rfl, Or.inl rfl⟩

theorem foldl_inv (L : List String) (sha1 : String → String) (url now : String)
    (l : List String) (hsub : ∀ x ∈ l, x ∈ L) :
    ∀ (out : List Outage) (st : ScanState),
      (∀ o ∈ out, outInv L o) → stInv L st →
      (∀ o ∈ (l.foldl (stepLine sha1 url now) (out, st)).1, outInv L o) ∧
      stInv L (l.foldl (stepLine sha1 url now) (out, st)).2 := by
  induction l with
  | nil => intro out st hout hst; exact ⟨hout, hst⟩
  | cons ln rest ih =>
    intro out st hout hst
    simp only [List.foldl_cons]
    have hstep := stepLine_inv L sha1 url now out st ln (hsub ln (List.mem_cons_self _ _)) hout hst
    have hrec := ih (fun x hx => hsub x (List.mem_cons_of_mem _ hx))
      (stepLine sha1 url now (out, st) ln).1 (stepLine sha1 url now (out, st) ln).2
      hstep.1 hstep.2
    exact hrec

theorem scan_outInv (sha1 : String → String) (text url now : String) :
    ∀ o ∈ scanOutages sha1 text url now, outInv (pyNormLines text) o := by
  intro o ho
  simp only [scanOutages] at ho
  have hfold := foldl_inv (pyNormLines text) sha1 url now (pyNormLines text)
    (fun x hx => hx) [] initState (by simp) ⟨Or.inl rfl, Or.inl rfl⟩
  rcases List.mem_append.mp ho with h1 | h1
  · exact hfold.1 o h1
  · exact (flushRec_outInv _ sha1 url now _ hfold.2).1 o h1

set_option maxRecDepth 8000 in
/-- Counterexample to C7 as stated: on this pdf text the extractor emits a
record whose `startTime` is the raw captured date text, which is neither an
ISO-8601 string nor empty. -/
theorem c7_counterexample :
    (parse_pdf_for_outages (fun _ => "h") "REGION : NAIROBI REGION\nDate : Sunday 08.09.2024"
        "u" "t").map (fun o => o.startTime) = ["Sunday 08.09.2024"] ∧
    specIso8601 "Sunday 08.09.2024" = false ∧ ("Sunday 08.09.2024" : String) ≠ "" :=
  ⟨by decide, by decide, by decide⟩

/-- Claim C7, amended: `startTime`/`endTime` of every record are either empty
or the raw text captured by the date / time-range pattern from some normalized
line of the source (no ISO-8601 conversion is performed); records from the two
HTML fallback parsers always carry empty `startTime` and `endTime`. -/
theorem c7_times_raw_or_empty :
    (∀ (sha1 : String → String) (text url now : String) (o : Outage),
      o ∈ parse_pdf_for_outages sha1 text url now → outInv (pyNormLines text) o) ∧
    (∀ (sha1 : String → String) (now src : String) (ts : List String) (o : Outage),
      o ∈ parse_list_section_bs4 sha1 now src ts → o.startTime = "" ∧ o.endTime = "") ∧
    (∀ (sha1 : String → String) (now src html : String) (o : Outage),
      o ∈ parse_with_regex sha1 now src html → o.startTime = "" ∧ o.endTime = "") := by
  refine ⟨?_, ?_, ?_⟩
  · intro sha1 text url now o ho
    simp only [parse_pdf_for_outages] at ho
    split at ho
    · simp at ho
      subst ho
      exact ⟨Or.inl rfl, Or.inl rfl⟩
    · exact scan_outInv sha1 text url now o ho
  · intro sha1 now src ts o ho
    simp only [parse_list_section_bs4] at ho
    rcases List.mem_map.mp ho with ⟨t, ht, rfl⟩
    exact ⟨rfl, rfl⟩
  · intro sha1 now src html o ho
    simp only [parse_with_regex] at ho
    rcases List.mem_map.mp ho with ⟨m, hm, rfl⟩
    exact ⟨rfl, rfl⟩

set_option maxRecDepth 8000 in
/-- Witness for the amended C7 at a concrete extractor output. -/
theorem c7_times_raw_or_empty_witness :
    outInv (pyNormLines "REGION : NAIROBI REGION\nDate : Sunday 08.09.2024")
      { id := "h", region := "NAIROBI REGION", area := "", startTime := "Sunday 08.09.2024",
        endTime := "", sourceUrl := "u", createdAt := "t" } :=
  c7_times_raw_or_empty.1 (fun _ => "h") "REGION : NAIROBI REGION\nDate : Sunday 08.09.2024"
    "u" "t" _ (by decide)
